import Mathlib

/-!
# Verification of the Debate-backend RAG server

Shallow embedding of the two observed variants of the Express server
(`src/server/server3.js`, the `MemoryVectorStore` variant with chunk size
2000, and the unnamed variant using `FaissStore` with chunk size 1000),
together with proofs of the specified properties of the HTTP handlers and
of the RAG (retrieval-augmented-generation) pipeline.

Library components that the server calls but whose code is not part of
this repository (the LangChain `RecursiveCharacterTextSplitter`, the
vector stores' similarity query, mongoose's ObjectId validation) are
modelled from the specification and are marked as such in their doc
comments.  Everything else is translated directly from the JavaScript
source.
-/

namespace DebateBackend

/-- One chat turn of a debate's `chatHistory` (subdocument schema
`{ speaker: String, content: String, timestamp: Date }`); the timestamp is
modelled as a natural number of milliseconds. -/
structure ChatTurn where
  speaker : String
  content : String
  timestamp : Nat
deriving DecidableEq, Inhabited, Repr

/-- A stored debate record, after the mongoose `debateSchema`
(`clientId`, `debateTopic`, `userRole`, `chatHistory`, `createdAt`).
The fields the RAG pipeline and the handlers never read
(`adjudicationResult`, `uploadedFiles`) are omitted; `createdAt` is
modelled as a natural number of milliseconds. -/
structure DebateRecord where
  clientId : String
  debateTopic : String
  userRole : String
  chatHistory : List ChatTurn
  createdAt : Nat
deriving DecidableEq, Inhabited, Repr

/-! ## Chunker -/

/-- Modelled from the spec: the `RecursiveCharacterTextSplitter` used with
`{chunkSize: M, chunkOverlap: O}` is LangChain library code that is not
part of this repository.  Section 4.1 of the spec gives its contract:
chunks never exceed `M` characters, each chunk starts with the `O`
trailing characters of its predecessor, a blob no longer than `M` is
returned whole, and the hard character cut is the final fallback
boundary.  This model implements that contract with the hard character
cut: a blob of at most `M` characters is one chunk; otherwise the first
`M` characters form a chunk and splitting continues `M - O` characters
further.  A degenerate configuration with `M ≤ O` returns the blob whole
so that the definition is total; the contract only constrains `O < M`.
Recursion is driven by a fuel argument so that the definition is
structural; a round always consumes at least one character, so the
blob's length is enough fuel. -/
def splitBlobAux (M O : Nat) (fuel : Nat) (s : List Char) : List (List Char) :=
  match fuel with
  | 0 => [s]
  | fuel + 1 =>
    if s.length ≤ M ∨ M ≤ O then [s]
    else s.take M :: splitBlobAux M O fuel (s.drop (M - O))

/-- `splitBlob M O s` splits the blob `s`; the blob's length is always
enough fuel, since every round consumes at least one character. -/
def splitBlob (M O : Nat) (s : List Char) : List (List Char) :=
  splitBlobAux M O s.length s

/-- String-level wrapper of `splitBlob`, the shape in which the pipeline
consumes the splitter (`textSplitter.createDocuments(debateTexts)` feeds
strings and receives document chunks). -/
def chunkText (M O : Nat) (s : String) : List String :=
  (splitBlob M O s.data).map String.mk

/-! ## Document store and flattening -/

/-- The MongoDB filter built by the RAG endpoint
(`const query = clientId ? { clientId } : {}`): a missing `clientId` and
the falsy empty string both yield the empty filter. -/
def debateQuery (clientId : Option String) : Option String :=
  match clientId with
  | none => none
  | some c => if c = "" then none else some c

/-- `Debate.find(query).sort({ createdAt: -1 })`: the stored records
matching the filter, sorted by creation time descending. -/
def loadDebates (clientId : Option String) (records : List DebateRecord) :
    List DebateRecord :=
  List.insertionSort (fun a b => b.createdAt ≤ a.createdAt)
    (match debateQuery clientId with
     | none => records
     | some c => records.filter (fun r => r.clientId = c))

/-- The flattening inside `debates.map(...)` of `/api/chat/rag`: the chat
history rendered as `"speaker: content"` lines joined by newlines, behind
the template header `Debate on "<topic>" (Client: <clientId>):`. -/
def debateText (d : DebateRecord) : String :=
  let chatHistoryText :=
    String.intercalate "\n"
      (d.chatHistory.map fun chat => chat.speaker ++ ": " ++ chat.content)
  "Debate on \"" ++ d.debateTopic ++ "\" (Client: " ++ d.clientId ++ "):\n"
    ++ chatHistoryText

/-- `const debateTexts = debates.map(debate => ...)`: one text blob per
loaded record. -/
def ragDebateTexts (debates : List DebateRecord) : List String :=
  debates.map debateText

/-- Spec-side rendering (§4.4 LOADING→CHUNKING row): the header line
naming the record's topic and client id.  Used only to compare the
source's flattening against the spec's wording. -/
def specHeaderLine (d : DebateRecord) : String :=
  "Debate on \"" ++ d.debateTopic ++ "\" (Client: " ++ d.clientId ++ "):"

/-- Spec-side rendering: one chat turn as a `"<speaker>: <content>"`
line. -/
def specTurnLine (c : ChatTurn) : String :=
  c.speaker ++ ": " ++ c.content

/-- Spec-side rendering: header line, then the turn lines joined with
newlines, in the order the turns appear in the record. -/
def specDebateBlob (d : DebateRecord) : String :=
  specHeaderLine d ++ "\n" ++ String.intercalate "\n" (d.chatHistory.map specTurnLine)

/-! ## Vector index -/

/-- One entry of the per-request vector index: the embedding vector and
the originating chunk text (§3 Vector Index Entry; source metadata is
not read back by either variant's retrieval path). -/
structure IndexEntry where
  vec : List ℚ
  text : String
deriving DecidableEq, Inhabited

/-- Ranking relation on entry positions: position `i` ranks before `j`
when its similarity score is strictly higher, or, on a tie, when it was
inserted no later. -/
def rankRel (score : Nat → ℚ) (i j : Nat) : Prop :=
  score j < score i ∨ (score i = score j ∧ i ≤ j)

instance (score : Nat → ℚ) : DecidableRel (rankRel score) := fun i j => by
  unfold rankRel
  infer_instance

instance (score : Nat → ℚ) : IsTotal Nat (rankRel score) := by
  constructor
  intro i j
  rcases lt_trichotomy (score i) (score j) with hl | he | hg
  · exact Or.inr (Or.inl hl)
  · rcases Nat.le_total i j with hij | hji
    · exact Or.inl (Or.inr ⟨he, hij⟩)
    · exact Or.inr (Or.inr ⟨he.symm, hji⟩)
  · exact Or.inl (Or.inl hg)

instance (score : Nat → ℚ) : IsTrans Nat (rankRel score) := by
  constructor
  intro i j k hij hjk
  rcases hij with h1 | ⟨e1, l1⟩
  · rcases hjk with h2 | ⟨e2, l2⟩
    · exact Or.inl (lt_trans h2 h1)
    · exact Or.inl (e2 ▸ h1)
  · rcases hjk with h2 | ⟨e2, l2⟩
    · exact Or.inl (e1 ▸ h2)
    · exact Or.inr ⟨e1.trans e2, Nat.le_trans l1 l2⟩

instance (score : Nat → ℚ) : IsAntisymm Nat (rankRel score) := by
  constructor
  intro i j hij hji
  rcases hij with h1 | ⟨e1, l1⟩
  · rcases hji with h2 | ⟨e2, l2⟩
    · exact absurd (lt_trans h1 h2) (lt_irrefl _)
    · exact absurd h1 (e2 ▸ lt_irrefl _)
  · rcases hji with h2 | ⟨e2, l2⟩
    · exact absurd h2 (e1 ▸ lt_irrefl _)
    · exact Nat.le_antisymm l1 l2

/-- Extract the best-ranked position among `x :: l`: the extracted
position and the remaining positions. -/
def pickBest (score : Nat → ℚ) (x : Nat) (l : List Nat) : Nat × List Nat :=
  match l with
  | [] => (x, [])
  | y :: ys =>
    if rankRel score x y then
      let p := pickBest score x ys
      (p.1, y :: p.2)
    else
      let p := pickBest score y ys
      (p.1, x :: p.2)

/-- Selection sort over positions, driven by a fuel argument (one unit
per emitted position) so that the recursion is structural. -/
def selectionSortAux (score : Nat → ℚ) (fuel : Nat) (l : List Nat) :
    List Nat :=
  match fuel, l with
  | 0, _ => []
  | _, [] => []
  | fuel + 1, x :: xs =>
    let p := pickBest score x xs
    p.1 :: selectionSortAux score fuel p.2

/-- Modelled from the spec: the Vector Index `query` contract (§4.2).
The stores' own similarity search (`MemoryVectorStore` /
`FaissStore.similaritySearch`) is library code not part of this
repository; §4.2 specifies the top-`k` entries by descending similarity
to the query vector, ties broken by insertion order (earlier entry
wins).  The similarity function is abstracted into a per-position
`score`, since only the induced ordering matters to the contract.  This
is the indexed strategy (§4.2 strategy (a)): all positions ranked by
repeated extraction of the best remaining candidate. -/
def vectorRank (score : Nat → ℚ) (n : Nat) : List Nat :=
  selectionSortAux score n (List.range n)

/-- Modelled from the spec: the same `query` contract realised by the
brute-force in-memory strategy (§4.2 strategy (b)): a linear scan over
all positions, each inserted into an ordered list. -/
def bruteRank (score : Nat → ℚ) (n : Nat) : List Nat :=
  List.insertionSort (rankRel score) (List.range n)

/-- The similarity score of the stored entry at position `i` against the
query vector `q`. -/
def entryScore (sim : List ℚ → List ℚ → ℚ) (q : List ℚ)
    (entries : List IndexEntry) (i : Nat) : ℚ :=
  sim q ((entries.getD i default).vec)

/-- `query(index, queryVector, k)` via the indexed strategy: the chunk
texts of the `k` best-ranked entries, in rank order. -/
def vectorQuery (sim : List ℚ → List ℚ → ℚ) (q : List ℚ)
    (entries : List IndexEntry) (k : Nat) : List String :=
  ((vectorRank (entryScore sim q entries) entries.length).take k).map
    (fun i => (entries.getD i default).text)

/-- `query(index, queryVector, k)` via the brute-force strategy. -/
def bruteQuery (sim : List ℚ → List ℚ → ℚ) (q : List ℚ)
    (entries : List IndexEntry) (k : Nat) : List String :=
  ((bruteRank (entryScore sim q entries) entries.length).take k).map
    (fun i => (entries.getD i default).text)

/-! ## HTTP handlers -/

/-- Status and JSON body of a `/api/chat/rag` response; a field absent
from the body is `none`. -/
structure RagResponse where
  status : Nat
  success : Bool
  reply : Option String
  message : Option String
  error : Option String
deriving DecidableEq, Repr

/-- Which external collaborators a `/api/chat/rag` request reached:
the Document Store (`Debate.find`), the Embedder, the Generator. -/
structure RagEffects where
  storeQueried : Bool
  embedderCalled : Bool
  generatorCalled : Bool
deriving DecidableEq, Repr

/-- The canned reply returned when no debate history matches. -/
def cannedNoHistory : String :=
  "I couldn't find any debate history. Once you complete a debate, you can ask me questions about it."

/-- The generic message of the RAG endpoint's catch handler. -/
def ragErrorMessage : String :=
  "An error occurred while processing your request."

/-- The rendered system message of the fixed prompt template, with the
retrieved context interpolated for `{context}`. -/
def ragSystemPrompt (context : String) : String :=
  "You are an expert assistant who analyzes a user's debate history. Answer the user's question based ONLY on the context provided below. If the information is not in the context, explicitly state that you cannot answer based on their history. Be concise and helpful.\n\nCONTEXT:\n"
    ++ context

/-- The guard `if (!question)`: a missing `question` and the falsy empty
string both fail it. -/
def questionMissing (question : Option String) : Bool :=
  match question with
  | none => true
  | some s => s = ""

/-- The `POST /api/chat/rag` handler.  `M` is the variant's chunk size
(2000 for the `MemoryVectorStore` variant, 1000 for the `FaissStore`
variant; both use overlap 200 and `k = 5`).  The external collaborators
are parameters: `sim` the similarity ordering of the vector store,
`embed` the Embedder, `gen` the Generator over the rendered prompt
messages; `store` is the outcome of `Debate.find` over the stored
records.  Any collaborator failure lands in the catch handler, which
responds 500 with only the generic message.  The second component
records which collaborators the request reached. -/
def ragHandler (M : Nat) (sim : List ℚ → List ℚ → ℚ)
    (embed : String → Except String (List ℚ))
    (gen : List (String × String) → Except String String)
    (question clientId : Option String)
    (store : Except String (List DebateRecord)) : RagResponse × RagEffects :=
  if questionMissing question then
    (⟨400, false, none, some "Question is required.", none⟩, ⟨false, false, false⟩)
  else
    match store with
    | .error _ =>
        (⟨500, false, none, some ragErrorMessage, none⟩, ⟨true, false, false⟩)
    | .ok records =>
        let debates := loadDebates clientId records
        if debates.length = 0 then
          (⟨200, true, some cannedNoHistory, none, none⟩, ⟨true, false, false⟩)
        else
          let debateTexts := ragDebateTexts debates
          let splitDocs := (debateTexts.map (chunkText M 200)).flatten
          match splitDocs.mapM embed with
          | .error _ =>
              (⟨500, false, none, some ragErrorMessage, none⟩, ⟨true, true, false⟩)
          | .ok vecs =>
              match embed (question.getD "") with
              | .error _ =>
                  (⟨500, false, none, some ragErrorMessage, none⟩, ⟨true, true, false⟩)
              | .ok qv =>
                  let entries := List.zipWith IndexEntry.mk vecs splitDocs
                  let retrieved := vectorQuery sim qv entries 5
                  let context := String.intercalate "\n\n" retrieved
                  let msgs := [("system", ragSystemPrompt context),
                               ("human", question.getD "")]
                  match gen msgs with
                  | .error _ =>
                      (⟨500, false, none, some ragErrorMessage, none⟩, ⟨true, true, true⟩)
                  | .ok reply =>
                      (⟨200, true, some reply, none, none⟩, ⟨true, true, true⟩)

/-- One row of the `GET /api/debates` projection
(`'debateTopic userRole createdAt clientId'`). -/
structure DebateSummary where
  debateTopic : String
  userRole : String
  createdAt : Nat
  clientId : String
deriving DecidableEq, Repr

/-- Status and JSON body of a `GET /api/debates` response. -/
structure ListResponse where
  status : Nat
  success : Bool
  data : List DebateSummary
  message : Option String
  error : Option String
deriving DecidableEq, Repr

/-- The `GET /api/debates` handler: on success the projected records
sorted by creation time descending; on a store failure the catch handler
responds 500 with a generic message AND the underlying error's message in
the `error` field (`error: error.message`). -/
def listDebatesHandler (store : Except String (List DebateRecord)) :
    ListResponse :=
  match store with
  | .ok records =>
      ⟨200, true,
        (List.insertionSort (fun a b => b.createdAt ≤ a.createdAt) records).map
          (fun d => ⟨d.debateTopic, d.userRole, d.createdAt, d.clientId⟩),
        none, none⟩
  | .error e =>
      ⟨500, false, [], some "An error occurred while fetching debates.", some e⟩

/-- A hexadecimal digit, in either case. -/
def isHexDigit (c : Char) : Bool :=
  c.isDigit || ('a' ≤ c && c ≤ 'f') || ('A' ≤ c && c ≤ 'F')

/-- Modelled from the spec: `mongoose.Types.ObjectId.isValid` is mongoose
library code not part of this repository; §6 specifies get-by-id with
identifier-format validation and §8 names `"not-an-id"` as a
syntactically invalid id.  A well-formed MongoDB ObjectId in string form
is exactly 24 hexadecimal characters. -/
def isValidObjectId (s : String) : Bool :=
  s.length == 24 && s.data.all isHexDigit

/-- Status and JSON body of a `GET /api/debates/:debateId` response. -/
structure GetResponse where
  status : Nat
  success : Bool
  data : Option DebateRecord
  message : Option String
  error : Option String
deriving DecidableEq, Repr

/-- The `GET /api/debates/:debateId` handler: 400 on an id that fails
validation, 404 when no record has the id, 200 with the record
otherwise; a store failure lands in the catch handler (500, generic
message plus the underlying error's message in `error`).  The store is
its id-to-record association. -/
def getDebateHandler (debateId : String)
    (store : Except String (List (String × DebateRecord))) : GetResponse :=
  if ¬ isValidObjectId debateId then
    ⟨400, false, none, some "Invalid debate ID format.", none⟩
  else
    match store with
    | .error e =>
        ⟨500, false, none, some "An error occurred while fetching debate details.", some e⟩
    | .ok records =>
        match records.lookup debateId with
        | none => ⟨404, false, none, some "Debate not found.", none⟩
        | some d => ⟨200, true, some d, none, none⟩

/-- The retrieval stage of the `MemoryVectorStore` variant
(`src/server/server3.js`): chunk size 2000, overlap 200, the brute-force
in-memory strategy, `k = 5`.  `embed` is the Embedder (total here: the
equivalence question compares the variants under identical, well-behaved
collaborators), applied to every chunk and to the question. -/
def ragRetrieveMemory (sim : List ℚ → List ℚ → ℚ) (embed : String → List ℚ)
    (question : String) (clientId : Option String)
    (records : List DebateRecord) : List String :=
  let chunks :=
    ((ragDebateTexts (loadDebates clientId records)).map (chunkText 2000 200)).flatten
  bruteQuery sim (embed question) (chunks.map fun c => ⟨embed c, c⟩) 5

/-- The retrieval stage of the `FaissStore` variant
(`src/unnamed/part_000`): chunk size 1000, overlap 200, the indexed
strategy, `k = 5`. -/
def ragRetrieveFaiss (sim : List ℚ → List ℚ → ℚ) (embed : String → List ℚ)
    (question : String) (clientId : Option String)
    (records : List DebateRecord) : List String :=
  let chunks :=
    ((ragDebateTexts (loadDebates clientId records)).map (chunkText 1000 200)).flatten
  vectorQuery sim (embed question) (chunks.map fun c => ⟨embed c, c⟩) 5

/-! ## Splitter lemmas -/

/-- `splitBlobAux` ignores the exact fuel as long as it is enough. -/
theorem splitBlobAux_fuel_invariant (M O : Nat) :
    ∀ fuel₁ fuel₂ (s : List Char), s.length ≤ fuel₁ → s.length ≤ fuel₂ →
      splitBlobAux M O fuel₁ s = splitBlobAux M O fuel₂ s := by
  intro fuel₁
  induction fuel₁ with
  | zero =>
    intro fuel₂ s h1 h2
    have hs : s = [] := List.length_eq_zero.mp (Nat.le_zero.mp h1)
    subst hs
    cases fuel₂ with
    | zero => rfl
    | succ f => simp [splitBlobAux]
  | succ f1 ih =>
    intro fuel₂ s h1 h2
    cases fuel₂ with
    | zero =>
      have hs : s = [] := List.length_eq_zero.mp (Nat.le_zero.mp h2)
      subst hs
      simp [splitBlobAux]
    | succ f2 =>
      simp only [splitBlobAux]
      by_cases h : s.length ≤ M ∨ M ≤ O
      · rw [if_pos h, if_pos h]
      · rw [if_neg h, if_neg h]
        push_neg at h
        congr 1
        apply ih
        · simp only [List.length_drop]
          omega
        · simp only [List.length_drop]
          omega

theorem splitBlob_of_length_le {M O : Nat} {s : List Char}
    (h : s.length ≤ M) : splitBlob M O s = [s] := by
  unfold splitBlob
  cases hn : s.length with
  | zero => rfl
  | succ n =>
    simp only [splitBlobAux]
    rw [if_pos (Or.inl (hn ▸ h))]

theorem splitBlob_of_lt {M O : Nat} {s : List Char}
    (hMO : O < M) (h : M < s.length) :
    splitBlob M O s = s.take M :: splitBlob M O (s.drop (M - O)) := by
  unfold splitBlob
  obtain ⟨n, hn⟩ : ∃ n, s.length = n + 1 := ⟨s.length - 1, by omega⟩
  rw [hn]
  simp only [splitBlobAux]
  rw [if_neg (by omega)]
  congr 1
  apply splitBlobAux_fuel_invariant
  · simp only [List.length_drop]
    omega
  · exact le_rfl

theorem splitBlob_ne_nil (M O : Nat) (s : List Char) :
    splitBlob M O s ≠ [] := by
  unfold splitBlob
  cases s.length with
  | zero => simp [splitBlobAux]
  | succ n =>
    simp only [splitBlobAux]
    split <;> simp

/-- Recursion principle following the splitting scheme. -/
theorem splitBlob_rec (M O : Nat) {motive : List Char → Prop}
    (base : ∀ s : List Char, s.length ≤ M ∨ M ≤ O → motive s)
    (step : ∀ s : List Char, ¬(s.length ≤ M ∨ M ≤ O) →
      motive (s.drop (M - O)) → motive s) :
    ∀ s : List Char, motive s := by
  have H : ∀ n (s : List Char), s.length ≤ n → motive s := by
    intro n
    induction n with
    | zero =>
      intro s hs
      exact base s (Or.inl (by omega))
    | succ n ih =>
      intro s hs
      by_cases h : s.length ≤ M ∨ M ≤ O
      · exact base s h
      · refine step s h (ih _ ?_)
        push_neg at h
        simp only [List.length_drop]
        omega
  exact fun s => H s.length s le_rfl

/-- The first chunk is always the first `min M (s.length)` characters. -/
theorem splitBlob_head (M O : Nat) (s : List Char) (hMO : O < M) :
    (splitBlob M O s).head? = some (s.take M) := by
  by_cases hl : s.length ≤ M
  · rw [splitBlob_of_length_le hl]
    simp [List.take_of_length_le hl]
  · push_neg at hl
    rw [splitBlob_of_lt hMO hl]
    simp

/-- Every chunk the splitter produces has at most `M` characters. -/
theorem splitBlob_length_le (M O : Nat) (s : List Char) (hMO : O < M) :
    ∀ c ∈ splitBlob M O s, c.length ≤ M := by
  refine splitBlob_rec M O
    (motive := fun s => ∀ c ∈ splitBlob M O s, c.length ≤ M) ?_ ?_ s
  · intro t h c hc
    rcases h with h | h
    · rw [splitBlob_of_length_le h] at hc
      rw [List.mem_singleton] at hc
      subst hc
      exact h
    · omega
  · intro t h ih c hc
    push_neg at h
    rw [splitBlob_of_lt hMO h.1] at hc
    rcases List.mem_cons.mp hc with rfl | hc
    · simp
    · exact ih c hc

/-- Adjacent chunks overlap exactly: the last `O` characters of a chunk
are the first `O` characters of the next chunk. -/
theorem splitBlob_overlap (M O : Nat) (s : List Char) (hMO : O < M) :
    ∀ i, i + 1 < (splitBlob M O s).length →
      ((splitBlob M O s).getD i []).drop (((splitBlob M O s).getD i []).length - O)
        = ((splitBlob M O s).getD (i + 1) []).take O := by
  refine splitBlob_rec M O
    (motive := fun s => ∀ i, i + 1 < (splitBlob M O s).length →
      ((splitBlob M O s).getD i []).drop (((splitBlob M O s).getD i []).length - O)
        = ((splitBlob M O s).getD (i + 1) []).take O) ?_ ?_ s
  · intro t h i hi
    rcases h with h | h
    · rw [splitBlob_of_length_le h] at hi
      simp only [List.length_singleton] at hi
      omega
    · omega
  · intro t h ih i hi
    push_neg at h
    rw [splitBlob_of_lt hMO h.1] at hi ⊢
    cases i with
    | zero =>
      simp only [List.getD_cons_zero, List.getD_cons_succ]
      have hlen : (t.take M).length = M := by
        simp only [List.length_take]
        omega
      rw [hlen]
      have hhead := splitBlob_head M O (t.drop (M - O)) hMO
      have hrest : (splitBlob M O (t.drop (M - O))).getD 0 []
          = (t.drop (M - O)).take M := by
        cases hr : splitBlob M O (t.drop (M - O)) with
        | nil => exact absurd hr (splitBlob_ne_nil M O _)
        | cons a u =>
          rw [hr] at hhead
          simp only [List.head?_cons, Option.some.injEq] at hhead
          simp [hhead]
      rw [hrest, List.drop_take, List.take_take]
      congr 1
      omega
    | succ j =>
      simp only [List.getD_cons_succ]
      simp only [List.length_cons] at hi
      exact ih j (by omega)

/-! ## Ranking lemmas -/

theorem rankRel_refl (score : Nat → ℚ) (i : Nat) : rankRel score i i :=
  Or.inr ⟨rfl, le_rfl⟩

/-- `pickBest` permutes its input. -/
theorem pickBest_perm (score : Nat → ℚ) (x : Nat) (l : List Nat) :
    ((pickBest score x l).1 :: (pickBest score x l).2).Perm (x :: l) := by
  induction l generalizing x with
  | nil => simp [pickBest]
  | cons y ys ih =>
    simp only [pickBest]
    split
    · exact (List.Perm.swap _ _ _).trans
        (((ih x).cons y).trans (List.Perm.swap _ _ _))
    · exact (List.Perm.swap _ _ _).trans ((ih y).cons x)

/-- The extracted position ranks before every position of the input. -/
theorem pickBest_le (score : Nat → ℚ) (x : Nat) (l : List Nat) :
    ∀ y ∈ x :: l, rankRel score (pickBest score x l).1 y := by
  induction l generalizing x with
  | nil =>
    intro y hy
    rw [List.mem_singleton] at hy
    subst hy
    simpa [pickBest] using rankRel_refl score y
  | cons z zs ih =>
    intro y hy
    simp only [pickBest]
    split
    · next hxz =>
      rcases List.mem_cons.mp hy with rfl | hy₁
      · exact ih y y (List.mem_cons_self y zs)
      · rcases List.mem_cons.mp hy₁ with rfl | hy₂
        · exact IsTrans.trans _ _ _ (ih x x (List.mem_cons_self x zs)) hxz
        · exact ih x y (List.mem_cons_of_mem x hy₂)
    · next hxz =>
      have hzx : rankRel score z x :=
        (IsTotal.total (r := rankRel score) x z).resolve_left hxz
      rcases List.mem_cons.mp hy with rfl | hy₁
      · exact IsTrans.trans _ _ _ (ih z z (List.mem_cons_self z zs)) hzx
      · rcases List.mem_cons.mp hy₁ with rfl | hy₂
        · exact ih y y (List.mem_cons_self y zs)
        · exact ih z y (List.mem_cons_of_mem z hy₂)

/-- The selection sort permutes its input, given enough fuel. -/
theorem selectionSortAux_perm (score : Nat → ℚ) :
    ∀ (fuel : Nat) (l : List Nat), l.length ≤ fuel →
      (selectionSortAux score fuel l).Perm l := by
  intro fuel
  induction fuel with
  | zero =>
    intro l hl
    have hnil : l = [] := List.length_eq_zero.mp (Nat.le_zero.mp hl)
    subst hnil
    simp [selectionSortAux]
  | succ fuel ih =>
    intro l hl
    cases l with
    | nil => simp [selectionSortAux]
    | cons x xs =>
      simp only [selectionSortAux]
      have hperm := pickBest_perm score x xs
      have hlen : (pickBest score x xs).2.length = xs.length := by
        have h := hperm.length_eq
        simpa using h
      refine List.Perm.trans ?_ hperm
      refine List.Perm.cons _ (ih _ ?_)
      simp only [List.length_cons] at hl
      omega

/-- The selection sort sorts, given enough fuel. -/
theorem selectionSortAux_sorted (score : Nat → ℚ) :
    ∀ (fuel : Nat) (l : List Nat), l.length ≤ fuel →
      List.Sorted (rankRel score) (selectionSortAux score fuel l) := by
  intro fuel
  induction fuel with
  | zero =>
    intro l hl
    have hnil : l = [] := List.length_eq_zero.mp (Nat.le_zero.mp hl)
    subst hnil
    simp [selectionSortAux]
  | succ fuel ih =>
    intro l hl
    cases l with
    | nil => simp [selectionSortAux]
    | cons x xs =>
      simp only [selectionSortAux]
      have hperm := pickBest_perm score x xs
      have hlen : (pickBest score x xs).2.length = xs.length := by
        have h := hperm.length_eq
        simpa using h
      simp only [List.length_cons] at hl
      rw [List.sorted_cons]
      constructor
      · intro b hb
        have hb₁ : b ∈ (pickBest score x xs).2 :=
          (selectionSortAux_perm score fuel _ (by omega)).mem_iff.mp hb
        have hb₂ : b ∈ x :: xs :=
          hperm.mem_iff.mp (List.mem_cons_of_mem _ hb₁)
        exact pickBest_le score x xs b hb₂
      · exact ih _ (by omega)

theorem vectorRank_perm (score : Nat → ℚ) (n : Nat) :
    (vectorRank score n).Perm (List.range n) :=
  selectionSortAux_perm score n (List.range n) (by simp)

theorem vectorRank_sorted (score : Nat → ℚ) (n : Nat) :
    List.Sorted (rankRel score) (vectorRank score n) :=
  selectionSortAux_sorted score n (List.range n) (by simp)

/-- The two backing strategies of §4.2 rank identically: a linear-scan
insertion sort and a selection sort of the same positions under the same
total antisymmetric ranking agree. -/
theorem bruteRank_eq_vectorRank (score : Nat → ℚ) (n : Nat) :
    bruteRank score n = vectorRank score n := by
  refine List.eq_of_perm_of_sorted (r := rankRel score) ?_ ?_ ?_
  · exact (List.perm_insertionSort _ _).trans (vectorRank_perm score n).symm
  · exact List.sorted_insertionSort _ _
  · exact vectorRank_sorted score n

/-- Strategy equivalence at the query level. -/
theorem bruteQuery_eq_vectorQuery (sim : List ℚ → List ℚ → ℚ) (q : List ℚ)
    (entries : List IndexEntry) (k : Nat) :
    bruteQuery sim q entries k = vectorQuery sim q entries k := by
  unfold bruteQuery vectorQuery
  rw [bruteRank_eq_vectorRank]

/-- A blob that fits in one chunk is returned whole. -/
theorem chunkText_of_le {M O : Nat} {s : String} (h : s.length ≤ M) :
    chunkText M O s = [s] := by
  unfold chunkText
  rw [splitBlob_of_length_le h]
  rfl

/-! ## Claims -/

/-- C3: for every non-empty text blob chunked with maximum size `M` and
overlap `O` (`O < M`), every produced chunk is at most `M` characters
long, and, when the contiguous blob is longer than `M`, the last `O`
characters of each chunk equal the first `O` characters of its
successor. -/
theorem chunking_size_and_overlap (M O : Nat) (s : List Char)
    (hMO : O < M) (hne : s ≠ []) :
    (∀ c ∈ splitBlob M O s, c.length ≤ M) ∧
    (M < s.length →
      ∀ i, i + 1 < (splitBlob M O s).length →
        ((splitBlob M O s).getD i []).drop
            (((splitBlob M O s).getD i []).length - O)
          = ((splitBlob M O s).getD (i + 1) []).take O) :=
  ⟨splitBlob_length_le M O s hMO, fun _ => splitBlob_overlap M O s hMO⟩

/-- Witness for C3 at `M = 5`, `O = 2` on a ten-character blob. -/
theorem chunking_size_and_overlap_witness :
    (∀ c ∈ splitBlob 5 2 "abcdefghij".data, c.length ≤ 5) ∧
    (5 < "abcdefghij".data.length →
      ∀ i, i + 1 < (splitBlob 5 2 "abcdefghij".data).length →
        ((splitBlob 5 2 "abcdefghij".data).getD i []).drop
            (((splitBlob 5 2 "abcdefghij".data).getD i []).length - 2)
          = ((splitBlob 5 2 "abcdefghij".data).getD (i + 1) []).take 2) :=
  chunking_size_and_overlap 5 2 "abcdefghij".data (by decide) (by decide)

/-- C9: a non-empty blob strictly shorter than the maximum chunk size
yields exactly one chunk identical to the blob. -/
theorem chunking_short_blob_identity (M O : Nat) (s : String)
    (hne : s ≠ "") (hlen : s.length < M) :
    chunkText M O s = [s] :=
  chunkText_of_le (Nat.le_of_lt hlen)

/-- Witness for C9 at `M = 2000`, `O = 200` on a short blob. -/
theorem chunking_short_blob_identity_witness :
    chunkText 2000 200 "a short debate blob" = ["a short debate blob"] :=
  chunking_short_blob_identity 2000 200 "a short debate blob"
    (by decide) (by decide)

/-- C2: when the document-store query returns no matching records, the
RAG endpoint answers 200 with `success: true` and the exact canned
reply, and neither the Embedder nor the Generator is invoked. -/
theorem rag_empty_history_short_circuit (M : Nat)
    (sim : List ℚ → List ℚ → ℚ) (embed : String → Except String (List ℚ))
    (gen : List (String × String) → Except String String)
    (question clientId : Option String) (records : List DebateRecord)
    (hq : questionMissing question = false)
    (hempty : loadDebates clientId records = []) :
    ragHandler M sim embed gen question clientId (.ok records)
      = (⟨200, true, some cannedNoHistory, none, none⟩, ⟨true, false, false⟩) := by
  unfold ragHandler
  rw [hq]
  simp [hempty]

/-- Witness for C2: a store holding only another client's record, so the
filtered query is empty. -/
theorem rag_empty_history_short_circuit_witness :
    questionMissing (some "What happened?") = false ∧
    loadDebates (some "u1") [⟨"u2", "Tabs", "PRO", [], 0⟩] = [] ∧
    ragHandler 2000 (fun _ _ => 0) (fun _ => .ok []) (fun _ => .ok "")
        (some "What happened?") (some "u1") (.ok [⟨"u2", "Tabs", "PRO", [], 0⟩])
      = (⟨200, true, some cannedNoHistory, none, none⟩, ⟨true, false, false⟩) :=
  ⟨by decide, by decide,
    rag_empty_history_short_circuit 2000 _ _ _ _ _ _ (by decide) (by decide)⟩

/-- C5: a request whose body lacks a non-empty `question` string is
answered 400 with `success: false`, and the Document Store is not
queried. -/
theorem rag_missing_question_guard (M : Nat)
    (sim : List ℚ → List ℚ → ℚ) (embed : String → Except String (List ℚ))
    (gen : List (String × String) → Except String String)
    (question clientId : Option String)
    (store : Except String (List DebateRecord))
    (hq : question = none ∨ question = some "") :
    ragHandler M sim embed gen question clientId store
      = (⟨400, false, none, some "Question is required.", none⟩,
         ⟨false, false, false⟩) := by
  have h : questionMissing question = true := by
    rcases hq with rfl | rfl <;> simp [questionMissing]
  unfold ragHandler
  rw [h]
  simp

/-- Witness for C5 with `question` omitted. -/
theorem rag_missing_question_guard_witness :
    ((none : Option String) = none ∨ (none : Option String) = some "") ∧
    ragHandler 2000 (fun _ _ => 0) (fun _ => .ok []) (fun _ => .ok "")
        none (some "u1") (.ok [])
      = (⟨400, false, none, some "Question is required.", none⟩,
         ⟨false, false, false⟩) :=
  ⟨Or.inl rfl,
    rag_missing_question_guard 2000 _ _ _ _ _ _ (Or.inl rfl)⟩

/-- C8: `GET /api/debates/:id` answers 400 on a syntactically invalid id
and 404 on a well-formed id that matches no record, both with
`success: false`. -/
theorem get_debate_id_validation (debateId : String)
    (records : List (String × DebateRecord)) :
    (isValidObjectId debateId = false →
      getDebateHandler debateId (.ok records)
        = ⟨400, false, none, some "Invalid debate ID format.", none⟩) ∧
    (isValidObjectId debateId = true → records.lookup debateId = none →
      getDebateHandler debateId (.ok records)
        = ⟨404, false, none, some "Debate not found.", none⟩) := by
  constructor
  · intro h
    simp [getDebateHandler, h]
  · intro h hl
    simp [getDebateHandler, h, hl]

/-- Witness for C8: the spec's `"not-an-id"` example and a well-formed
24-hex-character id unknown to an empty store. -/
theorem get_debate_id_validation_witness :
    (getDebateHandler "not-an-id" (.ok [])
        = ⟨400, false, none, some "Invalid debate ID format.", none⟩) ∧
    (getDebateHandler "0123456789abcdef01234567" (.ok [])
        = ⟨404, false, none, some "Debate not found.", none⟩) :=
  ⟨(get_debate_id_validation "not-an-id" []).1 (by decide),
    (get_debate_id_validation "0123456789abcdef01234567" []).2
      (by decide) (by decide)⟩

/-- C10: a request with `clientId` omitted or falsy builds the empty
filter, so the pipeline loads every stored record of every client, and
the reply can depend on records belonging to other clients: two stores
that agree on client `"u1"`'s records but differ on another client's
produce different replies for such a request. -/
theorem rag_falsy_clientId_cross_client (clientId : Option String)
    (records : List DebateRecord)
    (hfalsy : clientId = none ∨ clientId = some "") :
    debateQuery clientId = none ∧
    loadDebates clientId records
      = List.insertionSort (fun a b => b.createdAt ≤ a.createdAt) records ∧
    (∀ r ∈ records, r ∈ loadDebates clientId records) ∧
    (∃ recs₁ recs₂ : List DebateRecord,
      recs₁.filter (fun r => r.clientId == "u1")
        = recs₂.filter (fun r => r.clientId == "u1") ∧
      (ragHandler 2000 (fun _ _ => 0) (fun _ => .ok [0])
          (fun _ => .ok "an answer grounded in the loaded context")
          (some "q") clientId (.ok recs₁)).1.reply
        ≠ (ragHandler 2000 (fun _ _ => 0) (fun _ => .ok [0])
            (fun _ => .ok "an answer grounded in the loaded context")
            (some "q") clientId (.ok recs₂)).1.reply) := by
  have hquery : debateQuery clientId = none := by
    rcases hfalsy with rfl | rfl <;> simp [debateQuery]
  have hload : loadDebates clientId records
      = List.insertionSort (fun a b => b.createdAt ≤ a.createdAt) records := by
    unfold loadDebates
    rw [hquery]
  refine ⟨hquery, hload, ?_, ?_⟩
  · intro r hr
    rw [hload]
    exact (List.mem_insertionSort _).mpr hr
  · refine ⟨[], [⟨"u2", "Tabs", "PRO", [⟨"user", "hello", 0⟩], 0⟩], by decide, ?_⟩
    rcases hfalsy with rfl | rfl <;> decide

/-- C6: the flattening step produces exactly one text blob per loaded
record, each consisting of the header line naming the record's topic and
client id, followed by the record's chat turns rendered as
`"<speaker>: <content>"` lines joined with newlines, in the order the
turns appear in the record. -/
theorem rag_flattening_shape (debates : List DebateRecord) :
    (ragDebateTexts debates).length = debates.length ∧
    (∀ i, i < debates.length →
      (ragDebateTexts debates).getD i "" = specDebateBlob (debates.getD i default)) ∧
    (∀ d : DebateRecord, ∀ i, i < d.chatHistory.length →
      (d.chatHistory.map specTurnLine).getD i ""
        = specTurnLine (d.chatHistory.getD i default)) := by
  refine ⟨by simp [ragDebateTexts], ?_, ?_⟩
  · intro i hi
    have hblob : ∀ d : DebateRecord, debateText d = specDebateBlob d := by
      intro d
      unfold debateText specDebateBlob specHeaderLine specTurnLine
      apply String.ext
      simp [String.data_append]
    rw [ragDebateTexts, List.getD_eq_getElem?_getD, List.getElem?_map]
    rw [List.getD_eq_getElem?_getD]
    rcases List.getElem?_eq_getElem (l := debates) (n := i) hi with h
    rw [h]
    simp [hblob, List.getD_eq_getElem?_getD, h]
  · intro d i hi
    rw [List.getD_eq_getElem?_getD, List.getElem?_map]
    rcases List.getElem?_eq_getElem (l := d.chatHistory) (n := i) hi with h
    rw [h]
    simp [List.getD_eq_getElem?_getD, h]

/-- Witness for C6 on a two-record store. -/
theorem rag_flattening_shape_witness :
    (ragDebateTexts
        [⟨"u1", "Cats", "PRO", [⟨"user", "hi", 0⟩, ⟨"ai", "hello", 1⟩], 5⟩,
         ⟨"u2", "Dogs", "CON", [], 3⟩]).length = 2 ∧
    (∀ i, i < ([⟨"u1", "Cats", "PRO", [⟨"user", "hi", 0⟩, ⟨"ai", "hello", 1⟩], 5⟩,
         ⟨"u2", "Dogs", "CON", [], 3⟩] : List DebateRecord).length →
      (ragDebateTexts
        [⟨"u1", "Cats", "PRO", [⟨"user", "hi", 0⟩, ⟨"ai", "hello", 1⟩], 5⟩,
         ⟨"u2", "Dogs", "CON", [], 3⟩]).getD i ""
        = specDebateBlob
            (([⟨"u1", "Cats", "PRO", [⟨"user", "hi", 0⟩, ⟨"ai", "hello", 1⟩], 5⟩,
               ⟨"u2", "Dogs", "CON", [], 3⟩] : List DebateRecord).getD i default)) ∧
    (∀ d : DebateRecord, ∀ i, i < d.chatHistory.length →
      (d.chatHistory.map specTurnLine).getD i ""
        = specTurnLine (d.chatHistory.getD i default)) :=
  rag_flattening_shape
    [⟨"u1", "Cats", "PRO", [⟨"user", "hi", 0⟩, ⟨"ai", "hello", 1⟩], 5⟩,
     ⟨"u2", "Dogs", "CON", [], 3⟩]

/-- C7: the retrieval step returns at most `K = 5` chunk texts, namely
the texts of the best-ranked index positions; the rank order is strictly
descending in similarity score with ties broken by insertion order
(earlier position first); fewer than `K` texts come back when the index
holds fewer than `K` entries, and none when it is empty. -/
theorem rag_retrieval_contract (sim : List ℚ → List ℚ → ℚ) (q : List ℚ)
    (entries : List IndexEntry) :
    (vectorQuery sim q entries 5).length = min 5 entries.length ∧
    vectorQuery sim q entries 5
      = ((vectorRank (entryScore sim q entries) entries.length).take 5).map
          (fun i => (entries.getD i default).text) ∧
    List.Pairwise
      (fun i j =>
        entryScore sim q entries j < entryScore sim q entries i ∨
          (entryScore sim q entries i = entryScore sim q entries j ∧ i < j))
      ((vectorRank (entryScore sim q entries) entries.length).take 5) := by
  refine ⟨?_, rfl, ?_⟩
  · unfold vectorQuery
    rw [List.length_map, List.length_take]
    congr 1
    exact ((vectorRank_perm _ _).length_eq).trans (List.length_range _)
  · have hsorted := vectorRank_sorted (entryScore sim q entries) entries.length
    have hnodup : (vectorRank (entryScore sim q entries) entries.length).Nodup :=
      ((vectorRank_perm _ _).symm).nodup (List.nodup_range _)
    have hpair := List.Pairwise.and hsorted hnodup
    have htake := List.Pairwise.sublist (List.take_sublist 5 _) hpair
    refine htake.imp ?_
    intro i j hab
    rcases hab with ⟨hrel, hne⟩
    rcases hrel with h | ⟨he, hle⟩
    · exact Or.inl h
    · exact Or.inr ⟨he, lt_of_le_of_ne hle hne⟩

/-- C4 counterexample: a `GET /api/debates` request on which the store
operation raises an error whose message is `"boom"` is answered with an
error body that carries that underlying message in its `error` field
(`error: error.message`), so the response does not contain only a
generic message plus `success: false`. -/
theorem list_debates_error_leak :
    (listDebatesHandler (.error "boom")).status = 500 ∧
    (listDebatesHandler (.error "boom")).success = false ∧
    (listDebatesHandler (.error "boom")).error = some "boom" :=
  ⟨rfl, rfl, rfl⟩

/-- C4 (amended): on `POST /api/chat/rag`, every pipeline-stage or store
error is answered with `success: false` and only the generic message —
never the underlying error's message — while the debates CRUD endpoints
additionally expose the underlying message in an `error` field. -/
theorem rag_errors_generic (M : Nat) (sim : List ℚ → List ℚ → ℚ)
    (embed : String → Except String (List ℚ))
    (gen : List (String × String) → Except String String)
    (question clientId : Option String)
    (store : Except String (List DebateRecord)) :
    (ragHandler M sim embed gen question clientId store).1.status = 500 →
    (ragHandler M sim embed gen question clientId store).1
      = ⟨500, false, none, some ragErrorMessage, none⟩ := by
  unfold ragHandler
  by_cases hq : questionMissing question = true
  · rw [if_pos hq]
    intro h
    simp at h
  · rw [if_neg hq]
    cases store with
    | error e =>
      intro _
      rfl
    | ok records =>
      simp only []
      by_cases hlen : (loadDebates clientId records).length = 0
      · rw [if_pos hlen]
        intro h
        simp at h
      · rw [if_neg hlen]
        cases hm : ((ragDebateTexts (loadDebates clientId records)).map
            (chunkText M 200)).flatten.mapM embed with
        | error e =>
          intro _
          rfl
        | ok vecs =>
          cases hqv : embed (question.getD "") with
          | error e =>
            intro _
            rfl
          | ok qv =>
            simp only []
            cases hg : gen [("system", ragSystemPrompt (String.intercalate "\n\n"
                (vectorQuery sim qv (List.zipWith IndexEntry.mk vecs
                  ((ragDebateTexts (loadDebates clientId records)).map
                    (chunkText M 200)).flatten) 5))),
                ("human", question.getD "")] with
            | error e =>
              intro _
              rfl
            | ok reply =>
              intro h
              simp at h

/-- Witness for the amended C4: a concrete request whose store query
fails. -/
theorem rag_errors_generic_witness :
    (ragHandler 2000 (fun _ _ => 0) (fun _ => .ok []) (fun _ => .ok "")
        (some "q") none (.error "connection lost")).1
      = ⟨500, false, none, some ragErrorMessage, none⟩ :=
  rag_errors_generic 2000 (fun _ _ => 0) (fun _ => .ok []) (fun _ => .ok "")
    (some "q") none (.error "connection lost") (by decide)

set_option maxRecDepth 10000

/-- C1 counterexample: the two pipeline variants are not functionally
equivalent on identical requests and identical stored records.  A single
record whose flattened blob has 1138 characters is indexed as one chunk
by the chunk-size-2000 variant but as two chunks by the
chunk-size-1000 variant, so the two variants retrieve different chunk
texts (here under a constant similarity, which makes retrieval return
the indexed chunks in insertion order). -/
theorem rag_variants_not_equivalent :
    ragRetrieveMemory (fun _ _ => 0) (fun _ => [0]) "q" (some "u1")
        [⟨"u1", "Topic", "PRO", [⟨"user", String.mk (List.replicate 1100 'a'), 0⟩], 0⟩]
      ≠ ragRetrieveFaiss (fun _ _ => 0) (fun _ => [0]) "q" (some "u1")
        [⟨"u1", "Topic", "PRO", [⟨"user", String.mk (List.replicate 1100 'a'), 0⟩], 0⟩] := by
  decide

/-- C1 (amended): the two variants' backing index strategies are
functionally equivalent — for identical entries, similarity and `k` the
brute-force scan and the indexed strategy return identical results — but
the two observed pipelines also differ in chunk size (2000 vs 1000), so
whole-pipeline retrieval agrees only when the chunking agrees, e.g.
whenever every flattened blob fits the smaller chunk size. -/
theorem rag_variants_equivalent_on_small_blobs
    (sim : List ℚ → List ℚ → ℚ) (embed : String → List ℚ)
    (question : String) (clientId : Option String)
    (records : List DebateRecord)
    (hshort : ∀ t ∈ ragDebateTexts (loadDebates clientId records),
      t.length ≤ 1000) :
    ragRetrieveMemory sim embed question clientId records
      = ragRetrieveFaiss sim embed question clientId records := by
  unfold ragRetrieveMemory ragRetrieveFaiss
  have hmap : (ragDebateTexts (loadDebates clientId records)).map (chunkText 2000 200)
      = (ragDebateTexts (loadDebates clientId records)).map (chunkText 1000 200) := by
    apply List.map_congr_left
    intro t ht
    rw [chunkText_of_le (le_trans (hshort t ht) (by norm_num)),
      chunkText_of_le (hshort t ht)]
  simp only [hmap]
  rw [bruteQuery_eq_vectorQuery]

/-- Witness for the amended C1 on a store whose single blob is short. -/
theorem rag_variants_equivalent_on_small_blobs_witness :
    (∀ t ∈ ragDebateTexts (loadDebates (some "u1")
        [⟨"u1", "Cats", "PRO", [⟨"user", "hi", 0⟩], 0⟩]), t.length ≤ 1000) ∧
    ragRetrieveMemory (fun _ _ => 0) (fun _ => [0]) "q" (some "u1")
        [⟨"u1", "Cats", "PRO", [⟨"user", "hi", 0⟩], 0⟩]
      = ragRetrieveFaiss (fun _ _ => 0) (fun _ => [0]) "q" (some "u1")
        [⟨"u1", "Cats", "PRO", [⟨"user", "hi", 0⟩], 0⟩] :=
  ⟨by decide,
    rag_variants_equivalent_on_small_blobs (fun _ _ => 0) (fun _ => [0]) "q"
      (some "u1") [⟨"u1", "Cats", "PRO", [⟨"user", "hi", 0⟩], 0⟩] (by decide)⟩

/-- Witness for C10: a request without `clientId` against a store holding
only another client's record. -/
theorem rag_falsy_clientId_cross_client_witness :
    ((none : Option String) = none ∨ (none : Option String) = some "") ∧
    (debateQuery none = none ∧
      loadDebates none [⟨"u2", "Tabs", "PRO", [], 7⟩]
        = List.insertionSort (fun a b => b.createdAt ≤ a.createdAt)
            [⟨"u2", "Tabs", "PRO", [], 7⟩] ∧
      (∀ r ∈ ([⟨"u2", "Tabs", "PRO", [], 7⟩] : List DebateRecord),
        r ∈ loadDebates none [⟨"u2", "Tabs", "PRO", [], 7⟩]) ∧
      (∃ recs₁ recs₂ : List DebateRecord,
        recs₁.filter (fun r => r.clientId == "u1")
          = recs₂.filter (fun r => r.clientId == "u1") ∧
        (ragHandler 2000 (fun _ _ => 0) (fun _ => .ok [0])
            (fun _ => .ok "an answer grounded in the loaded context")
            (some "q") none (.ok recs₁)).1.reply
          ≠ (ragHandler 2000 (fun _ _ => 0) (fun _ => .ok [0])
              (fun _ => .ok "an answer grounded in the loaded context")
              (some "q") none (.ok recs₂)).1.reply)) :=
  ⟨Or.inl rfl,
    rag_falsy_clientId_cross_client none [⟨"u2", "Tabs", "PRO", [], 7⟩]
      (Or.inl rfl)⟩
